import Mathlib

/-
Verification of the sahara dependency-injection container (src/container.js).

The container orchestrates a registration store, a dependency-graph cycle
validator, lifetime policies, an injection pipeline, interception
configuration, and parent/child container forking.  The definitions below
are a shallow embedding of `src/container.js`.  The collaborators that live
outside that file (the `dep-graph` module, `lifetime.js`, `builder.js`,
`util.js`) are modelled from the specification and are marked as such in
their doc comments.

Effectful JavaScript code is embedded by explicit state passing: a `St`
value carries the container, a fresh-id counter for newly constructed
objects, and a trace of observable events (constructions, factory calls,
injection runs, interception-wrapping passes).  Possibly non-terminating
recursion (resolution of type dependencies) takes explicit fuel; running
out of fuel yields the distinguished `JsError.outOfFuel`, which no real
execution produces.  `resolveSync` returns `Except` (a thrown error or a
value); the callback-style `resolve` returns the pair of arguments the
JavaScript code passes to its completion callback.
-/

/-- Resolution keys are strings (JavaScript object-property keys). -/
abbrev Key := String

/-- JavaScript runtime values, abstracted to what the container observes:
primitives with their truthiness, and constructed objects carrying their
constructor name and an identity tag. -/
inductive JsValue where
  | undefined
  | null
  | bool (b : Bool)
  | num (n : Int)
  | str (s : String)
  | obj (typeName : String) (id : Nat)
deriving DecidableEq, Repr

/-- JavaScript truthiness: `undefined`, `null`, `false`, `0` and `""` are
falsy; every object is truthy. -/
def truthy : JsValue → Bool
  | .undefined => false
  | .null => false
  | .bool b => b
  | .num n => n != 0
  | .str s => s != ""
  | .obj _ _ => true

/-- JavaScript `instanceof` against a constructor, abstracted to comparing
the constructor name of an object; primitives are never `instanceof`. -/
def instanceOf (v : JsValue) (typeName : String) : Bool :=
  match v with
  | .obj t _ => t == typeName
  | _ => false

/-- Embeds `getKeyFromInstance` in container.js: `instance && instance.constructor
&& instance.constructor.name`.  The `&&` chain short-circuits on a falsy
instance, evaluating to the instance itself; a truthy instance yields its
constructor's name (objects their own, truthy boxed primitives their
wrapper constructor's). -/
def getKeyFromInstance (v : JsValue) : JsValue :=
  if truthy v then
    match v with
    | .obj t _ => .str t
    | .bool _ => .str "Boolean"
    | .num _ => .str "Number"
    | .str _ => .str "String"
    | .null => .null
    | .undefined => .undefined
  else v

/-- JavaScript property-key coercion `String(v)` applied when a value is
used as an object-property key (objects stringify through the default
`Object.prototype.toString`). -/
def toPropertyKey : JsValue → Key
  | .undefined => "undefined"
  | .null => "null"
  | .bool b => if b then "true" else "false"
  | .num n => toString n
  | .str s => s
  | .obj _ _ => "[object Object]"

/-- The errors the container and its collaborators produce.  Structured
errors carry the data their JavaScript messages interpolate; failures that
user code passes through callbacks or throws are `userError` (the code
propagates them unchanged).  `outOfFuel` is an artifact of the fuelled
embedding, produced by no real execution. -/
inductive JsError where
  | unregistered (key : Key)
  | missingKey
  | unresolvedParameter (position : Nat) (typeName : String)
  | cyclic (fromKey toKey : Key)
  | missingFactoryKey
  | userError (v : JsValue)
  | outOfFuel
deriving DecidableEq, Repr

/-- The message of each error, as the JavaScript source renders it. -/
def JsError.message : JsError → String
  | .unregistered k => "Nothing with key \"" ++ k ++ "\" is registered in the container"
  | .missingKey => "A resolution key must be given if a named function is not"
  | .unresolvedParameter p t =>
      "Unable to determine type of parameter at position " ++ toString p
        ++ " for type \"" ++ t ++ "\""
  | .cyclic a b => "Cyclic dependency from " ++ a ++ " to " ++ b
  | .missingFactoryKey => "\"options.key\" must be passed to registerFactory()"
  | .userError _ => "user error"
  | .outOfFuel => "out of fuel"

/-- Modelled from the spec: lifetime policies (lifetime.js is not under
src/).  The cache-policy interface is `fetch() -> instance or absent` and
`store(instance)`.  `transient` always reports absent and ignores store; a
caching ("memory"/singleton) policy holds a cached slot — the slot may
hold any JavaScript value, which lets us express custom policies whose
fetch returns a falsy value.  Absence is JavaScript `undefined`. -/
inductive Lifetime where
  | transient
  | memory (cached : JsValue)
deriving DecidableEq, Repr

/-- Embeds `fetch()`: returns the cached value, or `undefined` when absent. -/
def Lifetime.fetch : Lifetime → JsValue
  | .transient => .undefined
  | .memory c => c

/-- Embeds `store(v)`: transient ignores the store; the caching policy keeps the
first stored instance. -/
def Lifetime.store : Lifetime → JsValue → Lifetime
  | .transient, _ => .transient
  | .memory c, v => if c = .undefined then .memory v else .memory c

/-- An injection: a post-construction mutator run against the constructed
instance.  `runSync` is the result of `injectSync(instance, container)`
(`some e` means it threw `e`); `runAsync` is the error, if any, that
`inject(instance, container, callback)` passes to its callback.  The
container argument is not modelled: no verified property depends on an
injection re-entering the container. -/
structure Injection where
  runSync : JsValue → Option JsError
  runAsync : JsValue → Option JsError

/-- A user factory.  `runSync` models `factory(container)` — a returned
value or a thrown error; `runAsync` models the `(err, instance)` pair that
`factory(container, callback)` passes to its callback.  The container
argument is not modelled: no verified property depends on a factory
re-entering the container. -/
structure FactoryFn where
  runSync : Except JsError JsValue
  runAsync : Except JsError JsValue

/-- The type information the external extractor (`util.getTypeInfo`)
produces for a constructible type: its resolution key and the ordered
list of its constructor parameters' type keys. -/
structure TypeInfo where
  name : Key
  args : List Key
deriving DecidableEq, Repr

/-- The three registration kinds: constructible type, pre-built instance,
user factory. -/
inductive RegKind where
  | type (typeInfo : TypeInfo)
  | inst (value : JsValue)
  | factory (f : FactoryFn)

/-- A registration-store entry: `Registration` in container.js, with the
fields its three constructors set. -/
structure Registration where
  name : Key
  lifetime : Lifetime
  injections : List Injection
  kind : RegKind

/-- Call handlers are opaque tokens: the container stores them and the
(spec-modelled) builder consults them; no verified property calls one. -/
abbrev Handler := Nat

/-- A committed interception configuration: the predicate built from the
matcher, the handler list, and the sync/async flag set at commit time. -/
structure HandlerConfig where
  matcher : JsValue → String → Bool
  handlers : List Handler
  isAsync : Bool

/-- The four shapes `intercept` accepts for its matcher argument: a
method-name string, an array `[ctor, methodName?]`, a plain value (used
through its boolean coercion), or a predicate function. -/
inductive Matcher where
  | byName (s : String)
  | byType (typeName : String) (methodName : Option String)
  | byValue (coerced : Bool)
  | byPred (p : JsValue → String → Bool)

/-- JavaScript falsiness of the optional second element of an array
matcher (`!matcher[1]`): absent or the empty string. -/
def falsyName : Option String → Bool
  | none => true
  | some s => s == ""

/-- The predicate `intercept` builds from its matcher argument. -/
def Matcher.toPredicate : Matcher → (JsValue → String → Bool)
  | .byName s => fun _ methodName => methodName == s
  | .byType t nm => fun v methodName =>
      instanceOf v t && (falsyName nm || nm == some methodName)
  | .byValue b => fun _ _ => b
  | .byPred p => p

/-- Association-list update with JavaScript-object semantics: one entry
per key, last write wins. -/
def setKey {α : Type} (m : List (Key × α)) (key : Key) (v : α) : List (Key × α) :=
  (key, v) :: m.filter (fun p => p.1 != key)

/-- Association-list lookup, first match. -/
def lookupKey {α : Type} : List (Key × α) → Key → Option α
  | [], _ => none
  | (k, v) :: rest, key => if k == key then some v else lookupKey rest key

/-- Modelled from the spec: the dependency graph of the external
`dep-graph` module — a mapping from each declaring key to the list of its
declared dependency keys. -/
abbrev Graph := List (Key × List Key)

/-- The declared dependencies of a key (empty when the key has none). -/
def deps (g : Graph) (k : Key) : List Key :=
  (lookupKey g k).getD []

/-- Embeds `graph.add(a, b)`: append one edge `a → b`.  Edges are only ever
appended, never removed (re-registration leaves stale edges behind). -/
def addEdge (g : Graph) (a b : Key) : Graph :=
  setKey g a (deps g a ++ [b])

/-- Add one edge per constructor argument of a newly registered type. -/
def addEdges (g : Graph) (a : Key) (bs : List Key) : Graph :=
  bs.foldl (fun g' b => addEdge g' a b) g

/-- All dependency targets appearing in the graph. -/
def targets (g : Graph) : List Key :=
  (g.map (fun p => p.2)).flatten

/-- One closure step of the reachable-set computation: keep the set and
append the not-yet-seen dependencies of its members. -/
def expandStep (g : Graph) (S : List Key) : List Key :=
  S ++ (((S.map (deps g)).flatten).filter (fun d => decide (d ∉ S))).dedup

/-- Modelled from the spec: the set of keys reachable from `k` (including
`k`), computed by iterating the closure step enough times to reach a
fixpoint. -/
def reachSet (g : Graph) (k : Key) : List Key :=
  Nat.iterate (expandStep g) ((targets g).dedup.length + 1) [k]

/-- Modelled from the spec: the incremental cycle validation run by
`graph.getChain(name)` after a registration's edges are inserted.  It
reports the source of the edge that closes a loop back to the newly
registered key, or nothing when the key is on no cycle. -/
def cyclicCheck (g : Graph) (k : Key) : Option Key :=
  (reachSet g k).find? (fun u => decide (k ∈ deps g u))

/-- The edge relation of the dependency graph. -/
def EdgeRel (g : Graph) (a b : Key) : Prop :=
  b ∈ deps g a

/-- The container state: registration store, committed interception
configurations, and the dependency graph.  The JavaScript object also
holds a provenance-only reference to the parent container, which no
operation ever reads, and an object builder closed over the container's
resolvers; neither carries state of its own. -/
structure Container where
  registrations : List (Key × Registration)
  handlerConfigs : List HandlerConfig
  graph : Graph

/-- Embeds `new Container()`: the empty container. -/
def emptyContainer : Container :=
  { registrations := [], handlerConfigs := [], graph := [] }

/-- JavaScript `options.key || fallback`: an empty-string key is falsy and
is passed over. -/
def effectiveKey (k : Option Key) : Option Key :=
  match k with
  | some s => if s == "" then none else some s
  | none => none

/-- Embeds `registerType`, with the result of the external type-info extractor
passed in (`util.getTypeInfo` is outside src/; per the spec it either
yields a `TypeInfo` or fails with a missing-key or unresolved-parameter
error).  Note the order of operations in container.js: the registration
is committed to the store and the graph edges are inserted before the
cycle validation runs, so a cyclic-dependency failure leaves the new
entry committed. -/
def registerTypeWith (c : Container) (extracted : Except JsError TypeInfo)
    (lifetime : Option Lifetime) (injections : List Injection) :
    Option JsError × Container :=
  match extracted with
  | .error e => (some e, c)
  | .ok ti =>
    let reg : Registration :=
      { name := ti.name, lifetime := lifetime.getD .transient,
        injections := injections, kind := .type ti }
    let c1 := { c with registrations := setKey c.registrations ti.name reg }
    let c2 := { c1 with graph := addEdges c1.graph ti.name ti.args }
    match cyclicCheck c2.graph ti.name with
    | some u => (some (.cyclic u ti.name), c2)
    | none => (none, c2)

/-- Embeds `registerInstance`: the key is the truthy explicit option or,
failing that, whatever `getKeyFromInstance` evaluates to, coerced to a
property key — so a `null` instance with no explicit key lands under
`"null"`, a `false` one under `"false"`, and so on; the entry is stored
unconditionally. -/
def registerInstance (c : Container) (v : JsValue) (key : Option Key)
    (lifetime : Option Lifetime) (injections : List Injection) :
    Option JsError × Container :=
  let k : Key :=
    match effectiveKey key with
    | some s => s
    | none => toPropertyKey (getKeyFromInstance v)
  let reg : Registration :=
    { name := k, lifetime := lifetime.getD .transient,
      injections := injections, kind := .inst v }
  (none, { c with registrations := setKey c.registrations k reg })

/-- Embeds `registerFactory`: an explicit (truthy) key is mandatory; otherwise
the entry is stored unconditionally. -/
def registerFactory (c : Container) (f : FactoryFn) (key : Option Key)
    (lifetime : Option Lifetime) (injections : List Injection) :
    Option JsError × Container :=
  match effectiveKey key with
  | none => (some .missingFactoryKey, c)
  | some k =>
    let reg : Registration :=
      { name := k, lifetime := lifetime.getD .transient,
        injections := injections, kind := .factory f }
    (none, { c with registrations := setKey c.registrations k reg })

/-- Embeds `createChildContainer`: a new container holding a copy of the parent's
registration entries, graph entries, and handler-config list as of the
fork moment (the JavaScript loops copy them entry by entry into the fresh
child). -/
def createChildContainer (c : Container) : Container :=
  { registrations := c.registrations,
    handlerConfigs := c.handlerConfigs,
    graph := c.graph }

/-- Embeds `intercept(matcher, ...handlers)`: builds the predicate and the
pending configuration; the container itself is untouched (nothing is
committed until `.sync()` or `.async()` runs). -/
structure InterceptBuilder where
  matcher : JsValue → String → Bool
  handlers : List Handler

/-- Embeds `container.intercept(matcher, ...handlers)`.  The unchanged container
is returned alongside the pending configuration to make explicit that the
call itself commits nothing. -/
def Container.intercept (c : Container) (m : Matcher) (hs : List Handler) :
    InterceptBuilder × Container :=
  ({ matcher := m.toPredicate, handlers := hs }, c)

/-- The `.sync()` thunk: commit the configuration with `isAsync := false`
and return the container. -/
def interceptSync (c : Container) (b : InterceptBuilder) : Container :=
  { c with handlerConfigs :=
      c.handlerConfigs ++ [{ matcher := b.matcher, handlers := b.handlers, isAsync := false }] }

/-- The `.async()` thunk: commit the configuration with `isAsync := true`
and return the container. -/
def interceptAsync (c : Container) (b : InterceptBuilder) : Container :=
  { c with handlerConfigs :=
      c.handlerConfigs ++ [{ matcher := b.matcher, handlers := b.handlers, isAsync := true }] }

/-- Observable resolution events: the instantiation mechanism running, a
user factory being called, one injection being executed, and the
interception-wrapping pass of the builder. -/
inductive Event where
  | constructed (typeName : Key)
  | factoryRun (key : Key)
  | injected (key : Key)
  | wrapped (typeName : Key)
deriving DecidableEq, Repr

/-- The resolution state: the container, a fresh-id supply for newly
constructed objects, and the trace of events so far. -/
structure St where
  c : Container
  nextId : Nat
  trace : List Event

/-- Append one event to the trace. -/
def emit (st : St) (e : Event) : St :=
  { st with trace := st.trace ++ [e] }

/-- Embeds `registration.lifetime.store(instance)`: update the lifetime of the
registration currently stored under `key`. -/
def storeAt (st : St) (key : Key) (inst : JsValue) : St :=
  match lookupKey st.c.registrations key with
  | none => st
  | some reg =>
    let regs := setKey st.c.registrations key { reg with lifetime := reg.lifetime.store inst }
    { st with c := { st.c with registrations := regs } }

/-- The blocking injection loop (`injectSync`): injections run strictly in
list order, each fully completing before the next starts; the first
thrown error aborts the loop (later injections do not run). -/
def runAllSync : List Injection → JsValue → Key → St → Option JsError × St
  | [], _, _, st => (none, st)
  | i :: is, inst, key, st =>
    let st' := emit st (.injected key)
    match i.runSync inst with
    | some e => (some e, st')
    | none => runAllSync is inst key st'

/-- The suspend-capable injection loop (`inject`, via `async.forEach`):
all injections are started and all run to completion — in-flight
injections are not cancelled on failure — and the first observed error is
the one reported. -/
def runAllAsync : List Injection → JsValue → Key → St → Option JsError × St
  | [], _, _, st => (none, st)
  | i :: is, inst, key, st =>
    let st' := emit st (.injected key)
    let e := i.runAsync inst
    let (e', st'') := runAllAsync is inst key st'
    (e <|> e', st'')

/-- Embeds `injectSync(instance, key)`: look the registration up again and run
its injections in order. -/
def injectSyncF (st : St) (inst : JsValue) (key : Key) : Option JsError × St :=
  match lookupKey st.c.registrations key with
  | none => (some (.unregistered key), st)
  | some reg => runAllSync reg.injections inst key st

/-- Embeds `inject(instance, key, callback)`: look the registration up again and
run all its injections, reporting the first failure. -/
def injectAsync (st : St) (inst : JsValue) (key : Key) : Option JsError × St :=
  match lookupKey st.c.registrations key with
  | none => (some (.unregistered key), st)
  | some reg => runAllAsync reg.injections inst key st

/-- The tail of the blocking miss path, after construction has produced an
instance: `this.injectSync(instance, key); registration.lifetime.store
(instance); return instance`.  An injection failure propagates as a throw
— the store is skipped and the instance is lost to the caller. -/
def finishSync (st : St) (key : Key) (inst : JsValue) : Except JsError JsValue × St :=
  let (err, st') := injectSyncF st inst key
  match err with
  | some e => (.error e, st')
  | none => (.ok inst, storeAt st' key inst)

/-- The tail of the suspend-capable miss path (`injectAndReturn` after a
successful construction): run the injections; on success store into the
lifetime and call back with the instance; on failure skip the store but
still pass the partially-injected instance to the callback alongside the
error. -/
def finishAsync (st : St) (key : Key) (inst : JsValue) :
    (Option JsError × Option JsValue) × St :=
  let (err, st') := injectAsync st inst key
  match err with
  | some e => ((some e, some inst), st')
  | none => ((none, some inst), storeAt st' key inst)

/-- Resolve a type's constructor arguments left to right with the given
resolver (the resolver for the next recursion depth), stopping at the
first failure. -/
def resolveArgsWith (resolver : St → Key → Except JsError JsValue × St) :
    St → List Key → Except JsError (List JsValue) × St
  | st, [] => (.ok [], st)
  | st, k :: ks =>
    match resolver st k with
    | (.error e, st') => (.error e, st')
    | (.ok v, st') =>
      match resolveArgsWith resolver st' ks with
      | (.error e, st'') => (.error e, st'')
      | (.ok vs, st'') => (.ok (v :: vs), st'')

/-- Modelled from the spec: the object builder (`builder.newInstanceSync`
and `builder.newInstance`; builder.js is not under src/).  It resolves
each constructor argument through the container — under the
single-threaded cooperative model the two forms sequence identically, and
all arguments complete before construction — with the first failure
aborting construction and propagating unchanged; it then invokes the
instantiation mechanism and applies the interception-wrapping pass over
the handler configs. -/
def buildWith (resolver : St → Key → Except JsError JsValue × St)
    (st : St) (ti : TypeInfo) : Except JsError JsValue × St :=
  match resolveArgsWith resolver st ti.args with
  | (.error e, st') => (.error e, st')
  | (.ok _, st') =>
    let inst := JsValue.obj ti.name st'.nextId
    let st'' := emit { st' with nextId := st'.nextId + 1 } (.constructed ti.name)
    (.ok inst, emit st'' (.wrapped ti.name))

/-- Blocking construction, per registration kind: an instance registration
yields its stored value; a type registration runs the object builder; a
factory registration calls the user factory (whose thrown error
propagates). -/
def constructSyncWith (resolver : St → Key → Except JsError JsValue × St)
    (st : St) (key : Key) : RegKind → Except JsError JsValue × St
  | .inst v => (.ok v, st)
  | .type ti => buildWith resolver st ti
  | .factory f => (f.runSync, emit st (.factoryRun key))

/-- The blocking cache-miss path: construct per the registration kind,
then inject and store. -/
def missSyncWith (resolver : St → Key → Except JsError JsValue × St)
    (st : St) (key : Key) (reg : Registration) : Except JsError JsValue × St :=
  match constructSyncWith resolver st key reg.kind with
  | (.error e, st') => (.error e, st')
  | (.ok inst, st') => finishSync st' key inst

/-- Embeds `resolveSync(key)`: look up the registration (throwing on an unknown
key), return the lifetime's cached value if it is truthy, and otherwise
run the miss path.  Fuel bounds the recursion through type dependencies. -/
def resolveSyncF : Nat → St → Key → Except JsError JsValue × St
  | 0 => fun st _ => (.error .outOfFuel, st)
  | n + 1 => fun st key =>
    match lookupKey st.c.registrations key with
    | none => (.error (.unregistered key), st)
    | some reg =>
      if truthy reg.lifetime.fetch then (.ok reg.lifetime.fetch, st)
      else missSyncWith (resolveSyncF n) st key reg

/-- View the suspend-capable callback pair as a construction outcome: an
error component means failure; otherwise the delivered instance
(`undefined` when absent, as in JavaScript). -/
def asyncOutcome : (Option JsError × Option JsValue) × St → Except JsError JsValue × St
  | ((some e, _), st) => (.error e, st)
  | ((none, v), st) => (.ok (v.getD .undefined), st)

/-- The suspend-capable cache-miss path: construct per the registration
kind, feeding the outcome to `injectAndReturn` — a construction failure
is called back without an instance; success continues with injection. -/
def missAsyncWith (resolver : St → Key → Except JsError JsValue × St)
    (st : St) (key : Key) (reg : Registration) :
    (Option JsError × Option JsValue) × St :=
  match reg.kind with
  | .inst v => finishAsync st key v
  | .type ti =>
    match buildWith resolver st ti with
    | (.error e, st') => ((some e, none), st')
    | (.ok inst, st') => finishAsync st' key inst
  | .factory f =>
    let st' := emit st (.factoryRun key)
    match f.runAsync with
    | .error e => ((some e, none), st')
    | .ok inst => finishAsync st' key inst

/-- Embeds `resolve(key, callback)`: the suspend-capable resolve.  The result is
the `(err, instance)` pair passed to the completion callback; every
failure travels through it and the function itself never throws. -/
def resolveF : Nat → St → Key → (Option JsError × Option JsValue) × St
  | 0 => fun st _ => ((some .outOfFuel, none), st)
  | n + 1 => fun st key =>
    match lookupKey st.c.registrations key with
    | none => ((some (.unregistered key), none), st)
    | some reg =>
      if truthy reg.lifetime.fetch then ((none, some reg.lifetime.fetch), st)
      else missAsyncWith (fun st' k => asyncOutcome (resolveF n st' k)) st key reg

/-- Suspend-capable construction per registration kind, viewed as an
outcome: the value the miss path would hand to `injectAndReturn` — an
instance registration's stored value, the object builder's result, or
the user factory's callback pair — together with the state as
construction leaves it.  This is a reading of `missAsyncWith` used to
state post-construction properties uniformly over all three kinds. -/
def constructAsyncWith (resolver : St → Key → Except JsError JsValue × St)
    (st : St) (key : Key) : RegKind → Except JsError JsValue × St
  | .inst v => (.ok v, st)
  | .type ti => buildWith resolver st ti
  | .factory f =>
    match f.runAsync with
    | .error e => (.error e, emit st (.factoryRun key))
    | .ok inst => (.ok inst, emit st (.factoryRun key))

/-- Embeds `tryResolveSync(key)`: wrap `resolveSync`, converting any failure into
an absent (`undefined`, here `none`) result.  State mutations made before
a throw persist. -/
def tryResolveSyncF (fuel : Nat) (st : St) (key : Key) : Option JsValue × St :=
  match resolveSyncF fuel st key with
  | (.ok v, st') => (some v, st')
  | (.error _, st') => (none, st')

/-! Association-list facts about the registration store. -/

theorem lookupKey_setKey_same {α : Type} (m : List (Key × α)) (k : Key) (v : α) :
    lookupKey (setKey m k v) k = some v := by
  simp [setKey, lookupKey]

theorem lookupKey_filter_ne {α : Type} (m : List (Key × α)) (k k' : Key) (h : k' ≠ k) :
    lookupKey (m.filter (fun p => p.1 != k)) k' = lookupKey m k' := by
  induction m with
  | nil => rfl
  | cons hd tl ih =>
    rcases hd with ⟨a, b⟩
    by_cases hk : a = k
    · subst hk
      have hpred : (a != a) = false := by simp
      have hak : (a == k') = false := by
        simp only [beq_eq_false_iff_ne]
        exact fun hek => h hek.symm
      simp [List.filter, hpred, lookupKey, hak, ih]
    · have hpred : (a != k) = true := by simpa using hk
      simp [List.filter, hpred, lookupKey, ih]

theorem lookupKey_setKey_other {α : Type} (m : List (Key × α)) (k k' : Key) (v : α)
    (h : k' ≠ k) : lookupKey (setKey m k v) k' = lookupKey m k' := by
  have hk : (k == k') = false := by
    simp only [beq_eq_false_iff_ne]
    exact fun hek => h hek.symm
  simp [setKey, lookupKey, hk, lookupKey_filter_ne m k k' h]

theorem mem_of_lookupKey {α : Type} :
    ∀ {m : List (Key × α)} {k : Key} {v : α}, lookupKey m k = some v → (k, v) ∈ m := by
  intro m
  induction m with
  | nil => intro k v h; simp [lookupKey] at h
  | cons hd tl ih =>
    intro k v h
    rcases hd with ⟨a, b⟩
    by_cases hak : (a == k) = true
    · have ha : a = k := by simpa using hak
      subst ha
      simp [lookupKey] at h
      subst h
      exact List.mem_cons_self _ _
    · have hak' : (a == k) = false := by simpa using hak
      simp [lookupKey, hak'] at h
      exact List.mem_cons_of_mem _ (ih h)

/-! The injection loops only extend the event trace: they never touch the
container or the fresh-id supply. -/

theorem runAllSync_c (is : List Injection) (inst : JsValue) (key : Key) (st : St) :
    (runAllSync is inst key st).2.c = st.c := by
  induction is generalizing st with
  | nil => rfl
  | cons i is ih =>
    simp only [runAllSync]
    cases i.runSync inst with
    | some e => rfl
    | none => exact ih _

theorem runAllAsync_c (is : List Injection) (inst : JsValue) (key : Key) (st : St) :
    (runAllAsync is inst key st).2.c = st.c := by
  induction is generalizing st with
  | nil => rfl
  | cons i is ih =>
    simp only [runAllAsync]
    rcases h : runAllAsync is inst key (emit st (.injected key)) with ⟨e', st''⟩
    have := ih (emit st (.injected key))
    rw [h] at this
    simpa using this

theorem injectSyncF_c (st : St) (inst : JsValue) (key : Key) :
    (injectSyncF st inst key).2.c = st.c := by
  unfold injectSyncF
  cases lookupKey st.c.registrations key with
  | none => rfl
  | some reg => exact runAllSync_c _ _ _ _

theorem injectAsync_c (st : St) (inst : JsValue) (key : Key) :
    (injectAsync st inst key).2.c = st.c := by
  unfold injectAsync
  cases lookupKey st.c.registrations key with
  | none => rfl
  | some reg => exact runAllAsync_c _ _ _ _

/-! Correctness of the reachable-set computation behind the cycle check:
iterating the closure step long enough reaches a fixpoint, the fixpoint is
closed under the edge relation, and therefore contains everything
reachable from the starting key. -/

theorem subset_expandStep (g : Graph) (S : List Key) : S ⊆ expandStep g S :=
  fun _ h => List.mem_append_left _ h

theorem newPart_nil_of_fix {g : Graph} {S : List Key} (h : expandStep g S = S) :
    (((S.map (deps g)).flatten).filter (fun d => decide (d ∉ S))).dedup = [] := by
  have hlen := congrArg List.length h
  simp only [expandStep, List.length_append] at hlen
  have : (((S.map (deps g)).flatten).filter (fun d => decide (d ∉ S))).dedup.length = 0 := by
    omega
  exact List.length_eq_zero.mp this

theorem deps_subset_of_fix {g : Graph} {S : List Key} (h : expandStep g S = S)
    {u : Key} (hu : u ∈ S) : deps g u ⊆ S := by
  intro d hd
  by_contra hdS
  have hflat : d ∈ (S.map (deps g)).flatten :=
    List.mem_flatten.mpr ⟨deps g u, List.mem_map_of_mem _ hu, hd⟩
  have hmem : d ∈ (((S.map (deps g)).flatten).filter (fun d => decide (d ∉ S))).dedup := by
    rw [List.mem_dedup]
    exact List.mem_filter.mpr ⟨hflat, by simpa using hdS⟩
  rw [newPart_nil_of_fix h] at hmem
  exact absurd hmem (List.not_mem_nil d)

theorem nodup_expandStep {g : Graph} {S : List Key} (h : S.Nodup) :
    (expandStep g S).Nodup := by
  refine List.Nodup.append h (List.nodup_dedup _) ?_
  intro a haS hadedup
  rw [List.mem_dedup, List.mem_filter] at hadedup
  have : a ∉ S := by simpa using hadedup.2
  exact this haS

theorem deps_subset_targets (g : Graph) (u : Key) : deps g u ⊆ targets g := by
  intro d hd
  unfold deps at hd
  cases hl : lookupKey g u with
  | none => rw [hl] at hd; simp at hd
  | some l =>
    rw [hl] at hd
    simp only [Option.getD_some] at hd
    exact List.mem_flatten.mpr ⟨l, List.mem_map.mpr ⟨(u, l), mem_of_lookupKey hl, rfl⟩, hd⟩

theorem expandStep_subset {g : Graph} {S B : List Key} (hS : S ⊆ B)
    (hB : targets g ⊆ B) : expandStep g S ⊆ B := by
  intro a ha
  rcases List.mem_append.mp ha with h | h
  · exact hS h
  · rw [List.mem_dedup, List.mem_filter] at h
    rcases List.mem_flatten.mp h.1 with ⟨l, hl, hal⟩
    rcases List.mem_map.mp hl with ⟨u, _, rfl⟩
    exact hB (deps_subset_targets g u hal)

theorem iter_nodup (g : Graph) (k : Key) (m : Nat) :
    ((expandStep g)^[m] [k]).Nodup := by
  induction m with
  | zero => simp
  | succ m ih =>
    rw [Function.iterate_succ_apply']
    exact nodup_expandStep ih

theorem iter_subset (g : Graph) (k : Key) (m : Nat) :
    ((expandStep g)^[m] [k]) ⊆ k :: targets g := by
  induction m with
  | zero =>
    intro a ha
    simp only [Function.iterate_zero, id] at ha
    simp [List.eq_of_mem_singleton ha]
  | succ m ih =>
    rw [Function.iterate_succ_apply']
    exact expandStep_subset ih (List.subset_cons_of_subset _ (List.Subset.refl _))

theorem iter_length_le (g : Graph) (k : Key) (m : Nat) :
    ((expandStep g)^[m] [k]).length ≤ (targets g).dedup.length + 1 := by
  have h1 : ((expandStep g)^[m] [k]).Nodup := iter_nodup g k m
  have h2 : ((expandStep g)^[m] [k]) ⊆ k :: (targets g).dedup := by
    intro a ha
    rcases List.mem_cons.mp (iter_subset g k m ha) with h | h
    · simp [h]
    · exact List.mem_cons_of_mem _ (List.mem_dedup.mpr h)
  have := (h1.subperm h2).length_le
  simpa using this

theorem iter_growth (g : Graph) (k : Key) (m : Nat)
    (h : expandStep g ((expandStep g)^[m] [k]) ≠ (expandStep g)^[m] [k]) :
    ((expandStep g)^[m] [k]).length + 1 ≤ ((expandStep g)^[m + 1] [k]).length := by
  rw [Function.iterate_succ_apply']
  set S := (expandStep g)^[m] [k] with hS
  have hne : (((S.map (deps g)).flatten).filter (fun d => decide (d ∉ S))).dedup ≠ [] := by
    intro hnil
    refine h ?_
    unfold expandStep
    rw [hnil, List.append_nil]
  have hpos : 0 < (((S.map (deps g)).flatten).filter (fun d => decide (d ∉ S))).dedup.length :=
    List.length_pos.mpr hne
  simp only [expandStep, List.length_append]
  omega

theorem reachSet_fix (g : Graph) (k : Key) :
    expandStep g (reachSet g k) = reachSet g k := by
  by_contra hne
  have persist : ∀ i, expandStep g ((expandStep g)^[i] [k]) = (expandStep g)^[i] [k] →
      ∀ j, i ≤ j → (expandStep g)^[j] [k] = (expandStep g)^[i] [k] := by
    intro i hi j hij
    induction j with
    | zero =>
      have : i = 0 := Nat.le_zero.mp hij
      rw [this]
    | succ j ih =>
      rcases Nat.lt_or_ge i (j + 1) with hlt | hge
      · have hij' : i ≤ j := Nat.lt_succ_iff.mp hlt
        rw [Function.iterate_succ_apply', ih hij', hi]
      · have : i = j + 1 := Nat.le_antisymm hij hge
        rw [this]
  have nofix : ∀ i, i ≤ (targets g).dedup.length + 1 →
      expandStep g ((expandStep g)^[i] [k]) ≠ (expandStep g)^[i] [k] := by
    intro i hi hfix
    refine hne ?_
    have hiter : reachSet g k = (expandStep g)^[(targets g).dedup.length + 1] [k] := rfl
    rw [hiter, persist i hfix ((targets g).dedup.length + 1) hi, hfix]
  have grow : ∀ i, i ≤ (targets g).dedup.length + 1 →
      i + 1 ≤ ((expandStep g)^[i] [k]).length := by
    intro i
    induction i with
    | zero => intro _; simp
    | succ i ih =>
      intro hi
      have h1 := ih (Nat.le_of_succ_le hi)
      have h2 := iter_growth g k i (nofix i (Nat.le_of_succ_le hi))
      omega
  have hg := grow ((targets g).dedup.length + 1) (Nat.le_refl _)
  have hb := iter_length_le g k ((targets g).dedup.length + 1)
  omega

theorem self_mem_reachSet (g : Graph) (k : Key) : k ∈ reachSet g k := by
  have h : ∀ m, k ∈ (expandStep g)^[m] [k] := by
    intro m
    induction m with
    | zero => simp
    | succ m ih =>
      rw [Function.iterate_succ_apply']
      exact subset_expandStep g _ ih
  exact h _

theorem reachSet_closed (g : Graph) (k : Key) :
    ∀ u ∈ reachSet g k, deps g u ⊆ reachSet g k :=
  fun _ hu => deps_subset_of_fix (reachSet_fix g k) hu

theorem mem_reachSet_of_reaches {g : Graph} {k u : Key}
    (h : Relation.ReflTransGen (EdgeRel g) k u) : u ∈ reachSet g k := by
  induction h with
  | refl => exact self_mem_reachSet g k
  | tail _ hbc ih => exact reachSet_closed g k _ ih hbc

theorem cyclicCheck_some_of_cycle {g : Graph} {k : Key}
    (h : Relation.TransGen (EdgeRel g) k k) :
    ∃ u, cyclicCheck g k = some u ∧ k ∈ deps g u := by
  rcases Relation.TransGen.tail'_iff.mp h with ⟨u, hru, hedge⟩
  have humem : u ∈ reachSet g k := mem_reachSet_of_reaches hru
  cases hfind : (reachSet g k).find? (fun x => decide (k ∈ deps g x)) with
  | none =>
    exfalso
    have hnone := List.find?_eq_none.mp hfind u humem
    simp only [decide_eq_true_eq] at hnone
    exact hnone hedge
  | some w =>
    refine ⟨w, ?_, ?_⟩
    · simpa [cyclicCheck] using hfind
    · have := List.find?_some hfind
      simpa using this

/-! Unfolding helpers for `registerType`. -/

theorem registerTypeWith_cyclic {c : Container} {ti : TypeInfo} {lt : Option Lifetime}
    {inj : List Injection} {u : Key}
    (hfind : cyclicCheck (addEdges c.graph ti.name ti.args) ti.name = some u) :
    registerTypeWith c (.ok ti) lt inj =
      (some (.cyclic u ti.name),
        { registrations := setKey c.registrations ti.name
            { name := ti.name, lifetime := lt.getD .transient,
              injections := inj, kind := .type ti },
          handlerConfigs := c.handlerConfigs,
          graph := addEdges c.graph ti.name ti.args }) := by
  dsimp only [registerTypeWith]
  rw [hfind]

theorem registerTypeWith_ok {c : Container} {ti : TypeInfo} {lt : Option Lifetime}
    {inj : List Injection}
    (hfind : cyclicCheck (addEdges c.graph ti.name ti.args) ti.name = none) :
    registerTypeWith c (.ok ti) lt inj =
      (none,
        { registrations := setKey c.registrations ti.name
            { name := ti.name, lifetime := lt.getD .transient,
              injections := inj, kind := .type ti },
          handlerConfigs := c.handlerConfigs,
          graph := addEdges c.graph ti.name ti.args }) := by
  dsimp only [registerTypeWith]
  rw [hfind]

/-- The container of the test scenario `registerType(Foo)` where `Foo`
declares one dependency on `Bar`. -/
def fooBarContainer : Container :=
  (registerTypeWith emptyContainer (.ok ⟨"Foo", ["Bar"]⟩) none []).2

/-- The result of registering `Bar` (depending on `Foo`) into the container
already holding `Foo` (depending on `Bar`) — the step that closes the
two-type cycle. -/
def barRereg : Option JsError × Container :=
  registerTypeWith fooBarContainer (.ok ⟨"Bar", ["Foo"]⟩) none []

/-- Claim C1, counterexample: registering `Bar` (depending on `Foo`) into a
container already holding `Foo` (depending on `Bar`) raises the
cyclic-dependency error, yet the entry for the newly registered key `Bar`
is committed to the registration store — container.js installs the
registration and the graph edges before running `getChain`. -/
theorem c1_counterexample :
    barRereg.1 = some (.cyclic "Foo" "Bar") ∧
    (lookupKey barRereg.2.registrations "Bar").isSome = true :=
  ⟨rfl, rfl⟩

/-- Claim C1, amended: a registration-time failure of the type-info
extractor (missing key, unresolved parameter) aborts `registerType` with
the store unchanged; but the `CyclicDependencyError` raised by the cycle
validation is raised only after the new entry has been committed — the
newly registered key remains in the store with its new registration, and
prior entries keep their values. -/
theorem c1_theorem :
    (∀ (c : Container) (e : JsError) (lt : Option Lifetime) (inj : List Injection),
      registerTypeWith c (.error e) lt inj = (some e, c)) ∧
    (∀ (c : Container) (ti : TypeInfo) (lt : Option Lifetime) (inj : List Injection)
        (u : Key),
      cyclicCheck (addEdges c.graph ti.name ti.args) ti.name = some u →
      (registerTypeWith c (.ok ti) lt inj).1 = some (.cyclic u ti.name) ∧
      lookupKey (registerTypeWith c (.ok ti) lt inj).2.registrations ti.name
        = some { name := ti.name, lifetime := lt.getD .transient,
                 injections := inj, kind := .type ti } ∧
      ∀ k, k ≠ ti.name →
        lookupKey (registerTypeWith c (.ok ti) lt inj).2.registrations k
          = lookupKey c.registrations k) := by
  refine ⟨fun c e lt inj => rfl, fun c ti lt inj u hfind => ?_⟩
  rw [registerTypeWith_cyclic hfind]
  exact ⟨rfl, lookupKey_setKey_same _ _ _,
    fun k hk => lookupKey_setKey_other _ _ _ _ hk⟩

/-- Claim C1, witness for the amended statement at the Foo/Bar cycle. -/
theorem c1_witness :
    cyclicCheck (addEdges fooBarContainer.graph "Bar" ["Foo"]) "Bar" = some "Foo" ∧
    (registerTypeWith fooBarContainer (.ok ⟨"Bar", ["Foo"]⟩) none []).1
      = some (.cyclic "Foo" "Bar") ∧
    lookupKey (registerTypeWith fooBarContainer (.ok ⟨"Bar", ["Foo"]⟩) none []).2.registrations
        "Bar"
      = some { name := "Bar", lifetime := .transient, injections := [],
               kind := .type ⟨"Bar", ["Foo"]⟩ } ∧
    lookupKey (registerTypeWith fooBarContainer (.ok ⟨"Bar", ["Foo"]⟩) none []).2.registrations
        "Foo" = lookupKey fooBarContainer.registrations "Foo" := by
  have h := c1_theorem.2 fooBarContainer ⟨"Bar", ["Foo"]⟩ none [] "Foo" rfl
  exact ⟨rfl, h.1, h.2.1, h.2.2 "Foo" (by decide)⟩

/-- Claim C7 (confirmed): registering a type whose dependencies loop back
to it — a self-loop or a transitive cycle, expressed as a non-empty
edge path from the new key back to itself in the post-insertion graph —
always makes `registerType` report a `CyclicDependencyError` naming the
newly registered key as the loop target.  `registerType` never constructs
instances (construction happens only in the resolve protocol), so the
failure precedes any construction of the involved types. -/
theorem c7_theorem (c : Container) (ti : TypeInfo) (lt : Option Lifetime)
    (inj : List Injection)
    (hcyc : Relation.TransGen (EdgeRel (addEdges c.graph ti.name ti.args))
      ti.name ti.name) :
    ∃ u, (registerTypeWith c (.ok ti) lt inj).1 = some (.cyclic u ti.name) := by
  rcases cyclicCheck_some_of_cycle hcyc with ⟨u, hfind, _⟩
  exact ⟨u, by rw [registerTypeWith_cyclic hfind]⟩

/-- Claim C7, witness: the two-type cycle Foo → Bar → Foo from the test
suite, and the one-edge self-loop Foo → Foo. -/
theorem c7_witness :
    (∃ u, (registerTypeWith fooBarContainer (.ok ⟨"Bar", ["Foo"]⟩) none []).1
      = some (.cyclic u "Bar")) ∧
    (∃ u, (registerTypeWith emptyContainer (.ok ⟨"Foo", ["Foo"]⟩) none []).1
      = some (.cyclic u "Foo")) := by
  constructor
  · have e1 : EdgeRel (addEdges fooBarContainer.graph "Bar" ["Foo"]) "Bar" "Foo" := by
      show "Foo" ∈ deps (addEdges fooBarContainer.graph "Bar" ["Foo"]) "Bar"
      decide
    have e2 : EdgeRel (addEdges fooBarContainer.graph "Bar" ["Foo"]) "Foo" "Bar" := by
      show "Bar" ∈ deps (addEdges fooBarContainer.graph "Bar" ["Foo"]) "Foo"
      decide
    exact c7_theorem fooBarContainer ⟨"Bar", ["Foo"]⟩ none []
      (Relation.TransGen.head e1 (Relation.TransGen.single e2))
  · have e : EdgeRel (addEdges emptyContainer.graph "Foo" ["Foo"]) "Foo" "Foo" := by
      show "Foo" ∈ deps (addEdges emptyContainer.graph "Foo" ["Foo"]) "Foo"
      decide
    exact c7_theorem emptyContainer ⟨"Foo", ["Foo"]⟩ none []
      (Relation.TransGen.single e)

/-! Claims about the resolve protocol. -/

/-- An injection that always fails with the opaque user error `"fail"`,
mirroring the failing injector of the test suite. -/
def failInjection : Injection :=
  ⟨fun _ => some (.userError (.str "fail")), fun _ => some (.userError (.str "fail"))⟩

/-- A container holding one instance registration under `"Foo"` whose
injection list fails. -/
def c2Container : Container :=
  (registerInstance emptyContainer (.obj "Foo" 1) none none [failInjection]).2

/-- The failing-injection resolution state. -/
def c2St : St := ⟨c2Container, 0, []⟩

/-- Claim C2, counterexample: in blocking mode an injection failure is
thrown out of `resolveSync` — the partially-injected instance is NOT
delivered to the caller alongside the failure (the trace shows the
injection did run, and the container — hence the lifetime cache — is
untouched). -/
theorem c2_counterexample :
    (resolveSyncF 1 c2St "Foo").1 = .error (.userError (.str "fail")) ∧
    (resolveSyncF 1 c2St "Foo").2.trace = [.injected "Foo"] ∧
    (resolveSyncF 1 c2St "Foo").2.c = c2Container :=
  ⟨rfl, rfl, rfl⟩

/-- The suspend-capable miss path factors through the construction
outcome: a construction failure is called back without an instance, a
construction success continues with `injectAndReturn`. -/
theorem missAsyncWith_eq (resolver : St → Key → Except JsError JsValue × St)
    (st : St) (key : Key) (reg : Registration) :
    missAsyncWith resolver st key reg =
      match constructAsyncWith resolver st key reg.kind with
      | (.error e, st') => ((some e, none), st')
      | (.ok inst, st') => finishAsync st' key inst := by
  rcases hk : reg.kind with ti | v | f
  · simp only [missAsyncWith, constructAsyncWith, hk]
  · simp only [missAsyncWith, constructAsyncWith, hk]
  · simp only [missAsyncWith, constructAsyncWith, hk]
    cases f.runAsync <;> rfl

/-- Claim C2, amended: for every registration kind — pre-built instance,
type built by the object builder, or user factory — when construction
succeeds but an injection fails, the suspend-capable `resolve` still
delivers the partially-injected instance to the caller together with the
failure signal and does not store it in the lifetime cache (the
container is exactly as construction left it); the blocking
`resolveSync` instead throws the failure without delivering the instance
(and also does not cache it).  On injection success both modes store the
instance into the lifetime cache and return it. -/
theorem c2_theorem (n : Nat) (st st1 : St) (key : Key) (reg : Registration)
    (inst : JsValue)
    (hreg : lookupKey st.c.registrations key = some reg)
    (hmiss : truthy reg.lifetime.fetch = false) :
    (constructAsyncWith (fun st2 k => asyncOutcome (resolveF n st2 k)) st key reg.kind
        = (.ok inst, st1) →
      (∀ e st', injectAsync st1 inst key = (some e, st') →
        resolveF (n + 1) st key = ((some e, some inst), st') ∧ st'.c = st1.c) ∧
      (∀ st', injectAsync st1 inst key = (none, st') →
        resolveF (n + 1) st key = ((none, some inst), storeAt st' key inst))) ∧
    (constructSyncWith (resolveSyncF n) st key reg.kind = (.ok inst, st1) →
      (∀ e st', injectSyncF st1 inst key = (some e, st') →
        resolveSyncF (n + 1) st key = (.error e, st') ∧ st'.c = st1.c) ∧
      (∀ st', injectSyncF st1 inst key = (none, st') →
        resolveSyncF (n + 1) st key = (.ok inst, storeAt st' key inst))) := by
  have hasync : resolveF (n + 1) st key
      = missAsyncWith (fun st2 k => asyncOutcome (resolveF n st2 k)) st key reg := by
    simp only [resolveF, hreg, hmiss, Bool.false_eq_true, if_false]
  have hsync : resolveSyncF (n + 1) st key
      = missSyncWith (resolveSyncF n) st key reg := by
    simp only [resolveSyncF, hreg, hmiss, Bool.false_eq_true, if_false]
  constructor
  · intro hcons
    have hfin : resolveF (n + 1) st key = finishAsync st1 key inst := by
      rw [hasync, missAsyncWith_eq, hcons]
    constructor
    · intro e st' hinj
      have hc := injectAsync_c st1 inst key
      rw [hinj] at hc
      refine ⟨?_, hc⟩
      rw [hfin]
      simp only [finishAsync, hinj]
    · intro st' hinj
      rw [hfin]
      simp only [finishAsync, hinj]
  · intro hcons
    have hfin : resolveSyncF (n + 1) st key = finishSync st1 key inst := by
      rw [hsync]
      simp only [missSyncWith, hcons]
    constructor
    · intro e st' hinj
      have hc := injectSyncF_c st1 inst key
      rw [hinj] at hc
      refine ⟨?_, hc⟩
      rw [hfin]
      simp only [finishSync, hinj]
    · intro st' hinj
      rw [hfin]
      simp only [finishSync, hinj]

/-- A user factory whose construction succeeds in both modes. -/
def c2Factory : FactoryFn := ⟨.ok (.obj "Widget" 5), .ok (.obj "Widget" 5)⟩

/-- A container holding a factory registration under `"Foo"` whose
injection list fails. -/
def c2FactoryContainer : Container :=
  (registerFactory emptyContainer c2Factory (some "Foo") none [failInjection]).2

/-- The factory-construction resolution state. -/
def c2FactorySt : St := ⟨c2FactoryContainer, 0, []⟩

/-- Claim C2, witness: at a factory registration whose construction
succeeds and whose injection fails, the suspend-capable resolve delivers
the constructed instance alongside the failure, while the blocking
resolve throws it without the instance. -/
theorem c2_witness :
    truthy (Lifetime.fetch .transient) = false ∧
    resolveF 1 c2FactorySt "Foo"
      = ((some (.userError (.str "fail")), some (.obj "Widget" 5)),
         (injectAsync (emit c2FactorySt (.factoryRun "Foo")) (.obj "Widget" 5) "Foo").2) ∧
    resolveSyncF 1 c2FactorySt "Foo"
      = (.error (.userError (.str "fail")),
         (injectSyncF (emit c2FactorySt (.factoryRun "Foo")) (.obj "Widget" 5) "Foo").2) := by
  have h := c2_theorem 0 c2FactorySt (emit c2FactorySt (.factoryRun "Foo")) "Foo"
    { name := "Foo", lifetime := .transient, injections := [failInjection],
      kind := .factory c2Factory }
    (.obj "Widget" 5) rfl rfl
  exact ⟨by decide,
    ((h.1 rfl).1 (.userError (.str "fail")) _ rfl).1,
    ((h.2 rfl).1 (.userError (.str "fail")) _ rfl).1⟩

/-- Claim C3 (confirmed): every resolve-time failure — unregistered key,
factory failure, construction failure, injection failure — is delivered
through the completion callback of the suspend-capable `resolve` (whose
result is by construction always a callback invocation, never a throw)
with the propagated error unchanged; the blocking `resolveSync` throws
instead; and `tryResolveSync` is exactly `resolveSync` with any failure
converted into an absent result. -/
theorem c3_theorem (n : Nat) (st : St) (key : Key) :
    (lookupKey st.c.registrations key = none →
      resolveF (n + 1) st key = ((some (.unregistered key), none), st) ∧
      resolveSyncF (n + 1) st key = (.error (.unregistered key), st)) ∧
    (∀ reg f e, lookupKey st.c.registrations key = some reg →
      truthy reg.lifetime.fetch = false → reg.kind = .factory f →
      f.runAsync = .error e →
      resolveF (n + 1) st key = ((some e, none), emit st (.factoryRun key))) ∧
    (∀ reg ti e st', lookupKey st.c.registrations key = some reg →
      truthy reg.lifetime.fetch = false → reg.kind = .type ti →
      buildWith (fun st2 k => asyncOutcome (resolveF n st2 k)) st ti = (.error e, st') →
      resolveF (n + 1) st key = ((some e, none), st')) ∧
    (∀ reg v e st', lookupKey st.c.registrations key = some reg →
      truthy reg.lifetime.fetch = false → reg.kind = .inst v →
      injectAsync st v key = (some e, st') →
      (resolveF (n + 1) st key).1 = (some e, some v)) ∧
    (tryResolveSyncF (n + 1) st key
      = ((resolveSyncF (n + 1) st key).1.toOption, (resolveSyncF (n + 1) st key).2)) := by
  refine ⟨?_, ?_, ?_, ?_, ?_⟩
  · intro hnone
    constructor
    · simp only [resolveF, hnone]
    · simp only [resolveSyncF, hnone]
  · intro reg f e hreg hmiss hkind hfa
    simp only [resolveF, hreg, hmiss, Bool.false_eq_true, if_false, missAsyncWith, hkind, hfa]
  · intro reg ti e st' hreg hmiss hkind hbuild
    simp only [resolveF, hreg, hmiss, Bool.false_eq_true, if_false, missAsyncWith, hkind, hbuild]
  · intro reg v e st' hreg hmiss hkind hinj
    simp only [resolveF, hreg, hmiss, Bool.false_eq_true, if_false, missAsyncWith, hkind,
      finishAsync, hinj]
  · rcases h : resolveSyncF (n + 1) st key with ⟨r, st'⟩
    cases r with
    | ok v => simp [tryResolveSyncF, h, Except.toOption]
    | error e => simp [tryResolveSyncF, h, Except.toOption]

/-- Claim C3, witness: the unregistered-key failure on the empty container
is delivered through the callback pair, with the state untouched. -/
theorem c3_witness :
    lookupKey emptyContainer.registrations "Foo" = none ∧
    resolveF 1 ⟨emptyContainer, 0, []⟩ "Foo"
      = ((some (.unregistered "Foo"), none), ⟨emptyContainer, 0, []⟩) :=
  ⟨rfl, ((c3_theorem 0 ⟨emptyContainer, 0, []⟩ "Foo").1 rfl).1⟩

/-- Claim C5 (confirmed): resolving a key absent from the registration
store throws the unregistered-key error naming that key from
`resolveSync`, delivers the same error (and no instance) through
`resolve`'s callback, and makes `tryResolveSync` return absent. -/
theorem c5_theorem (n : Nat) (st : St) (key : Key)
    (h : lookupKey st.c.registrations key = none) :
    resolveSyncF (n + 1) st key = (.error (.unregistered key), st) ∧
    (JsError.unregistered key).message
      = "Nothing with key \"" ++ key ++ "\" is registered in the container" ∧
    resolveF (n + 1) st key = ((some (.unregistered key), none), st) ∧
    tryResolveSyncF (n + 1) st key = (none, st) := by
  have h1 : resolveSyncF (n + 1) st key = (.error (.unregistered key), st) := by
    simp only [resolveSyncF, h]
  refine ⟨h1, rfl, by simp only [resolveF, h], ?_⟩
  simp only [tryResolveSyncF, h1]

/-- Claim C5, witness: the key `"Foo"` on the empty container. -/
theorem c5_witness :
    lookupKey emptyContainer.registrations "Foo" = none ∧
    resolveSyncF 1 ⟨emptyContainer, 0, []⟩ "Foo"
      = (.error (.unregistered "Foo"), ⟨emptyContainer, 0, []⟩) ∧
    tryResolveSyncF 1 ⟨emptyContainer, 0, []⟩ "Foo" = (none, ⟨emptyContainer, 0, []⟩) := by
  have h := c5_theorem 0 ⟨emptyContainer, 0, []⟩ "Foo" rfl
  exact ⟨rfl, h.1, h.2.2.2⟩

/-- Claim C6 (confirmed): when the registration's lifetime fetch yields a
truthy cached instance, both resolvers return it with the state — trace
included — completely unchanged: no object-builder run, no factory call,
no injection, no interception wrapping. -/
theorem c6_theorem (n : Nat) (st : St) (key : Key) (reg : Registration)
    (hreg : lookupKey st.c.registrations key = some reg)
    (hhit : truthy reg.lifetime.fetch = true) :
    resolveSyncF (n + 1) st key = (.ok reg.lifetime.fetch, st) ∧
    resolveF (n + 1) st key = ((none, some reg.lifetime.fetch), st) := by
  constructor
  · simp only [resolveSyncF, hreg, hhit, if_true]
  · simp only [resolveF, hreg, hhit, if_true]

/-- The caching registration used to witness cache-hit behavior: the
cached slot holds a different object than the registered instance, so a
hit is observable. -/
def c6Container : Container :=
  (registerInstance emptyContainer (.obj "Foo" 99) (some "Foo")
    (some (.memory (.obj "Foo" 7))) []).2

/-- Claim C6, witness: the cached object comes back as-is, state untouched. -/
theorem c6_witness :
    truthy (Lifetime.fetch (.memory (.obj "Foo" 7))) = true ∧
    resolveSyncF 1 ⟨c6Container, 0, []⟩ "Foo"
      = (.ok (.obj "Foo" 7), ⟨c6Container, 0, []⟩) ∧
    resolveF 1 ⟨c6Container, 0, []⟩ "Foo"
      = ((none, some (.obj "Foo" 7)), ⟨c6Container, 0, []⟩) := by
  have h := c6_theorem 0 ⟨c6Container, 0, []⟩ "Foo" _ rfl (by decide)
  exact ⟨by decide, h.1, h.2⟩

/-- Claim C10 (confirmed): the cache-hit test is a truthiness test — a
falsy fetched value (`false`, `0`, `""`, `null`, `undefined`) sends both
resolvers down the cache-miss path, re-running construction and
injection. -/
theorem c10_theorem (n : Nat) (st : St) (key : Key) (reg : Registration)
    (hreg : lookupKey st.c.registrations key = some reg)
    (hmiss : truthy reg.lifetime.fetch = false) :
    resolveSyncF (n + 1) st key = missSyncWith (resolveSyncF n) st key reg ∧
    resolveF (n + 1) st key
      = missAsyncWith (fun st' k => asyncOutcome (resolveF n st' k)) st key reg := by
  constructor
  · simp only [resolveSyncF, hreg, hmiss, Bool.false_eq_true, if_false]
  · simp only [resolveF, hreg, hmiss, Bool.false_eq_true, if_false]

/-- An injection that always succeeds, used to observe the injection
pipeline running. -/
def noopInjection : Injection := ⟨fun _ => none, fun _ => none⟩

/-- A registration whose lifetime fetch returns the falsy value `false`. -/
def c10Container : Container :=
  (registerInstance emptyContainer (.obj "Foo" 9) (some "Foo")
    (some (.memory (.bool false))) [noopInjection]).2

/-- The falsy-cache resolution state. -/
def c10St : St := ⟨c10Container, 0, []⟩

/-- Claim C10, witness: with `false` in the cached slot, resolveSync takes
the miss path — the registered instance (not the cached `false`) comes
back, and the trace shows the injection re-ran. -/
theorem c10_witness :
    truthy (Lifetime.fetch (.memory (.bool false))) = false ∧
    resolveSyncF 1 c10St "Foo"
      = missSyncWith (resolveSyncF 0) c10St "Foo"
          { name := "Foo", lifetime := .memory (.bool false),
            injections := [noopInjection], kind := .inst (.obj "Foo" 9) } ∧
    (resolveSyncF 1 c10St "Foo").1 = .ok (.obj "Foo" 9) ∧
    (resolveSyncF 1 c10St "Foo").2.trace = [.injected "Foo"] := by
  have h := c10_theorem 0 c10St "Foo"
    { name := "Foo", lifetime := .memory (.bool false),
      injections := [noopInjection], kind := .inst (.obj "Foo" 9) } rfl (by decide)
  exact ⟨by decide, h.1, rfl, rfl⟩

/-! Claims about container forking, re-registration and interception. -/

/-- A parent container holding `v1` under key `"X"`. -/
def c4Parent (v1 : JsValue) : Container :=
  (registerInstance emptyContainer v1 (some "X") none []).2

/-- The child of that parent after re-registering `"X"` with `v2`. -/
def c4Child (v1 v2 : JsValue) : Container :=
  (registerInstance (createChildContainer (c4Parent v1)) v2 (some "X") none []).2

/-- Claim C4 (confirmed): `createChildContainer` copies the parent's
registration entries, graph entries, and handler-config list as of the
fork moment; registrations made afterwards on one side are invisible to
the other side's value.  In the claim's scenario, after the child
re-registers `"X"`, resolving `"X"` against the parent still yields the
original value while the child yields the replacement; and a key
registered in the parent after the fork is absent from the child. -/
theorem c4_theorem :
    (∀ c : Container,
      (createChildContainer c).registrations = c.registrations ∧
      (createChildContainer c).graph = c.graph ∧
      (createChildContainer c).handlerConfigs = c.handlerConfigs) ∧
    (∀ (v1 v2 : JsValue) (n : Nat),
      lookupKey (c4Parent v1).registrations "X"
        = some { name := "X", lifetime := .transient, injections := [],
                 kind := .inst v1 } ∧
      lookupKey (c4Child v1 v2).registrations "X"
        = some { name := "X", lifetime := .transient, injections := [],
                 kind := .inst v2 } ∧
      (resolveSyncF (n + 1) ⟨c4Parent v1, 0, []⟩ "X").1 = .ok v1 ∧
      (resolveSyncF (n + 1) ⟨c4Child v1 v2, 0, []⟩ "X").1 = .ok v2 ∧
      lookupKey ((registerInstance (c4Parent v1) v2 (some "Y") none []).2).registrations "Y"
        = some { name := "Y", lifetime := .transient, injections := [],
                 kind := .inst v2 } ∧
      lookupKey (createChildContainer (c4Parent v1)).registrations "Y" = none) :=
  ⟨fun _ => ⟨rfl, rfl, rfl⟩, fun _ _ _ => ⟨rfl, rfl, rfl, rfl, rfl, rfl⟩⟩

/-- Claim C8 (confirmed): a second register call under an existing key —
`registerInstance`, `registerFactory`, or a `registerType` whose
extraction succeeds under that key without introducing a cycle — fully
replaces the previous registration, lifetime and injections included,
raises no error, and leaves the store mapping the key to the new
registration only, so every subsequent resolve sees just the new entry
(demonstrated for the instance kind). -/
theorem c8_theorem (c : Container) (k : Key) (regOld : Registration)
    (hold : lookupKey c.registrations k = some regOld) (hk : k ≠ "") :
    (∀ v lt inj,
      registerInstance c v (some k) lt inj
        = (none, { c with
            registrations := setKey c.registrations k
              { name := k, lifetime := lt.getD .transient, injections := inj,
                kind := .inst v } }) ∧
      lookupKey (registerInstance c v (some k) lt inj).2.registrations k
        = some { name := k, lifetime := lt.getD .transient, injections := inj,
                 kind := .inst v }) ∧
    (∀ f lt inj,
      registerFactory c f (some k) lt inj
        = (none, { c with
            registrations := setKey c.registrations k
              { name := k, lifetime := lt.getD .transient, injections := inj,
                kind := .factory f } }) ∧
      lookupKey (registerFactory c f (some k) lt inj).2.registrations k
        = some { name := k, lifetime := lt.getD .transient, injections := inj,
                 kind := .factory f }) ∧
    (∀ ti lt inj, ti.name = k →
      cyclicCheck (addEdges c.graph k ti.args) k = none →
      (registerTypeWith c (.ok ti) lt inj).1 = none ∧
      lookupKey (registerTypeWith c (.ok ti) lt inj).2.registrations k
        = some { name := k, lifetime := lt.getD .transient, injections := inj,
                 kind := .type ti }) ∧
    (∀ v n,
      (resolveSyncF (n + 1) ⟨(registerInstance c v (some k) none []).2, 0, []⟩ k).1
        = .ok v) := by
  have hbeq : (k == "") = false := by simpa using hk
  have hek : effectiveKey (some k) = some k := by
    simp [effectiveKey, hbeq]
  have hinstEq : ∀ v lt inj,
      registerInstance c v (some k) lt inj
        = (none, { c with
            registrations := setKey c.registrations k
              { name := k, lifetime := lt.getD .transient, injections := inj,
                kind := .inst v } }) := by
    intro v lt inj
    simp only [registerInstance, hek]
  refine ⟨?_, ?_, ?_, ?_⟩
  · intro v lt inj
    refine ⟨hinstEq v lt inj, ?_⟩
    rw [hinstEq v lt inj]
    exact lookupKey_setKey_same _ _ _
  · intro f lt inj
    have heq : registerFactory c f (some k) lt inj
        = (none, { c with
            registrations := setKey c.registrations k
              { name := k, lifetime := lt.getD .transient, injections := inj,
                kind := .factory f } }) := by
      simp only [registerFactory, hek]
    refine ⟨heq, ?_⟩
    rw [heq]
    exact lookupKey_setKey_same _ _ _
  · intro ti lt inj hti hfind
    subst hti
    rw [registerTypeWith_ok hfind]
    exact ⟨rfl, lookupKey_setKey_same _ _ _⟩
  · intro v n
    rw [hinstEq v none []]
    have hlook : lookupKey
        (setKey c.registrations k
          { name := k, lifetime := Lifetime.transient, injections := [],
            kind := .inst v }) k
        = some { name := k, lifetime := Lifetime.transient, injections := [],
                 kind := .inst v } := lookupKey_setKey_same _ _ _
    simp only [resolveSyncF, hlook, missSyncWith, constructSyncWith, finishSync,
      injectSyncF, runAllSync, Option.getD_none, Lifetime.fetch, truthy,
      Bool.false_eq_true, if_false, storeAt]

/-- A container holding an original instance under `"X"`. -/
def c8Base : Container :=
  (registerInstance emptyContainer (.obj "A" 0) (some "X") none []).2

/-- Claim C8, witness: re-registering `"X"` replaces the entry and the
subsequent resolve yields the replacement. -/
theorem c8_witness :
    lookupKey c8Base.registrations "X"
      = some { name := "X", lifetime := .transient, injections := [],
               kind := .inst (.obj "A" 0) } ∧
    registerInstance c8Base (.obj "B" 1) (some "X") none []
      = (none, { c8Base with
          registrations := setKey c8Base.registrations "X"
            { name := "X", lifetime := .transient, injections := [],
              kind := .inst (.obj "B" 1) } }) ∧
    (resolveSyncF 1 ⟨(registerInstance c8Base (.obj "B" 1) (some "X") none []).2, 0, []⟩
        "X").1 = .ok (.obj "B" 1) := by
  have h := c8_theorem c8Base "X" _ rfl (by decide)
  exact ⟨rfl, (h.1 (.obj "B" 1) none []).1, h.2.2.2 (.obj "B" 1) 0⟩

/-- Claim C9 (confirmed): `intercept` itself leaves the container
untouched — only calling the returned `.sync()`/`.async()` commits, each
appending exactly one handler configuration with `isAsync` false
respectively true and returning the container — and the predicate built
from the matcher behaves as specified: a string matches exactly that
method name, an array matches instance-of its first element plus (when
its second element is truthy) name equality, any other non-function value
matches unconditionally according to its boolean coercion, and a function
is used as the predicate directly. -/
theorem c9_theorem :
    (∀ (c : Container) (m : Matcher) (hs : List Handler),
      (Container.intercept c m hs).2 = c) ∧
    (∀ (c : Container) (m : Matcher) (hs : List Handler),
      interceptSync c (Container.intercept c m hs).1
        = { c with handlerConfigs := c.handlerConfigs
            ++ [{ matcher := m.toPredicate, handlers := hs, isAsync := false }] }) ∧
    (∀ (c : Container) (m : Matcher) (hs : List Handler),
      interceptAsync c (Container.intercept c m hs).1
        = { c with handlerConfigs := c.handlerConfigs
            ++ [{ matcher := m.toPredicate, handlers := hs, isAsync := true }] }) ∧
    (∀ (s : String) (v : JsValue) (meth : String),
      ((Matcher.byName s).toPredicate v meth = true ↔ meth = s)) ∧
    (∀ (t : String) (nm : Option String) (v : JsValue) (meth : String),
      ((Matcher.byType t nm).toPredicate v meth = true ↔
        (instanceOf v t = true ∧ (falsyName nm = true ∨ nm = some meth)))) ∧
    (∀ (b : Bool) (v : JsValue) (meth : String),
      (Matcher.byValue b).toPredicate v meth = b) ∧
    (∀ (p : JsValue → String → Bool) (v : JsValue) (meth : String),
      (Matcher.byPred p).toPredicate v meth = p v meth) := by
  refine ⟨fun _ _ _ => rfl, fun _ _ _ => rfl, fun _ _ _ => rfl, ?_, ?_,
    fun _ _ _ => rfl, fun _ _ _ => rfl⟩
  · intro s v meth
    simp [Matcher.toPredicate]
  · intro t nm v meth
    simp [Matcher.toPredicate, Bool.and_eq_true, Bool.or_eq_true]
